import Mathlib

/-!
Verification of the Neo.js 2D affine-transform engine against its
natural-language specification.

The source stores a matrix as the element array [a, b, c, d, e, f],
representing the 3x3 homogeneous matrix

  | a  c  e |
  | b  d  f |
  | 0  0  1 |

JavaScript numbers are modelled by real numbers; `undefined` optional
arguments are modelled by `Option`.  JavaScript treats the number 0 as
falsy, so every `x || y` defaulting idiom in the source is modelled as
"if x = 0 then y else x" on numbers and by `Option.getD`-style matches
on possibly-missing arguments.
-/

noncomputable section

open Real

/-- The six matrix elements a..f of a Neo matrix (source: `this.elements`,
with `elements[0] = a`, ..., `elements[5] = f`). -/
structure Neo where
  a : ℝ
  b : ℝ
  c : ℝ
  d : ℝ
  e : ℝ
  f : ℝ
deriving DecidableEq

namespace Neo

/-- Source: `new Neo()` / `reset()` sets elements to `[1,0,0,1,0,0]`. -/
def identityM : Neo := ⟨1, 0, 0, 1, 0, 0⟩

/-- Source: `multiply` — standard affine composition `this · o`:
`m3 = [a1*a2 + c1*b2, b1*a2 + d1*b2, a1*c2 + c1*d2, b1*c2 + d1*d2,
a1*e2 + c1*f2 + e1, b1*e2 + d1*f2 + f1]`. -/
def multiply (m o : Neo) : Neo :=
  ⟨m.a * o.a + m.c * o.b,
   m.b * o.a + m.d * o.b,
   m.a * o.c + m.c * o.d,
   m.b * o.c + m.d * o.d,
   m.a * o.e + m.c * o.f + m.e,
   m.b * o.e + m.d * o.f + m.f⟩

/-- Source: `translate(tx, ty)` = `multiply(1, 0, 0, 1, tx, ty)`. -/
def translate (m : Neo) (tx ty : ℝ) : Neo :=
  m.multiply ⟨1, 0, 0, 1, tx, ty⟩

/-- Source: `scale(sx, sy, ox, oy)`.  The line `sy = sy || sx` defaults
`sy` to `sx` both when `sy` is `undefined` (modelled `none`) and when it
is the falsy number 0.  With a pivot, the source recurses as
`translate(-ox,-oy).scale(sx, sy).translate(ox, oy)` where the inner call
receives the already-defaulted `sy`; re-defaulting an already-defaulted
value is the identity (if `sy' = 0` then `sx = 0 = sy'` as well), so the
inner call is expanded to its no-pivot multiplication here. -/
def scale (m : Neo) (sx : ℝ) (osy : Option ℝ) (pivot : Option (ℝ × ℝ)) : Neo :=
  let sy : ℝ := match osy with
    | none => sx
    | some y => if y = 0 then sx else y
  match pivot with
  | some (ox, oy) =>
      (((m.translate (-ox) (-oy)).multiply ⟨sx, 0, 0, sy, 0, 0⟩).translate ox oy)
  | none => m.multiply ⟨sx, 0, 0, sy, 0, 0⟩

/-- Source: `scaleX(sx)` = `multiply(sx, 0, 0, 1, 0, 0)`. -/
def scaleXM (m : Neo) (sx : ℝ) : Neo :=
  m.multiply ⟨sx, 0, 0, 1, 0, 0⟩

/-- Source: `scaleY(sy)` = `multiply(1, 0, 0, sy, 0, 0)`. -/
def scaleYM (m : Neo) (sy : ℝ) : Neo :=
  m.multiply ⟨1, 0, 0, sy, 0, 0⟩

/-- Source: `translateX(tx)` = `multiply(1, 0, 0, 1, tx, 0)`. -/
def translateXM (m : Neo) (tx : ℝ) : Neo :=
  m.multiply ⟨1, 0, 0, 1, tx, 0⟩

/-- Source: `translateY(ty)` = `multiply(1, 0, 0, 1, 0, ty)`. -/
def translateYM (m : Neo) (ty : ℝ) : Neo :=
  m.multiply ⟨1, 0, 0, 1, 0, ty⟩

/-- The source's degree-to-radian factor, the literal `0.01745329251994`
(a truncation of pi/180, kept exactly as written). -/
def deg2rad : ℝ := 0.01745329251994

/-- Source: `rotateRad(r)` = `multiply(cos r, sin r, -sin r, cos r, 0, 0)`. -/
def rotateRad (m : Neo) (r : ℝ) : Neo :=
  m.multiply ⟨Real.cos r, Real.sin r, -Real.sin r, Real.cos r, 0, 0⟩

/-- Source: `rotate(r, ox, oy)` — degrees; with a pivot it recurses as
`translate(-ox,-oy).rotate(r).translate(ox,oy)` where the inner call has no
pivot, so it is expanded to `rotateRad(r * 0.01745329251994)` here. -/
def rotate (m : Neo) (r : ℝ) (pivot : Option (ℝ × ℝ)) : Neo :=
  match pivot with
  | some (ox, oy) =>
      (((m.translate (-ox) (-oy)).rotateRad (r * deg2rad)).translate ox oy)
  | none => m.rotateRad (r * deg2rad)

/-- Source: `skewXRad(ax)` = `multiply(1, 0, tan ax, 1, 0, 0)`. -/
def skewXRad (m : Neo) (ax : ℝ) : Neo :=
  m.multiply ⟨1, 0, Real.tan ax, 1, 0, 0⟩

/-- Source: `skewYRad(ay)` = `multiply(1, tan ay, 0, 1, 0, 0)`. -/
def skewYRad (m : Neo) (ay : ℝ) : Neo :=
  m.multiply ⟨1, Real.tan ay, 0, 1, 0, 0⟩

/-- Source: `skewX(ax)` = `skewXRad(ax * 0.01745329251994)`. -/
def skewX (m : Neo) (ax : ℝ) : Neo :=
  m.skewXRad (ax * deg2rad)

/-- Source: `skewY(ay)` = `skewYRad(ay * 0.01745329251994)`. -/
def skewY (m : Neo) (ay : ℝ) : Neo :=
  m.skewYRad (ay * deg2rad)

/-- Source: `inverse()` — divides by `determinant = a*d - c*b` with no
singularity check of any kind; in JavaScript a zero determinant silently
yields Infinity/NaN elements (here, division by zero yields 0). -/
def inverse (m : Neo) : Neo :=
  let determinant := m.a * m.d - m.c * m.b
  ⟨m.d / determinant,
   -m.b / determinant,
   -m.c / determinant,
   m.a / determinant,
   (m.c * m.f - m.e * m.d) / determinant,
   (m.e * m.b - m.a * m.f) / determinant⟩

/-- Source: `equals` (matrix-argument overload) — `tolerance = b || 1e-7`
treats an explicit 0 tolerance (falsy) exactly like an omitted one; a
component pair fails when `e1 > e2 + tolerance` or `e1 < e2 - tolerance`. -/
def equals (m o : Neo) (otol : Option ℝ) : Bool :=
  let tolerance : ℝ := match otol with
    | none => 1e-7
    | some t => if t = 0 then 1e-7 else t
  decide (¬(m.a > o.a + tolerance ∨ m.a < o.a - tolerance)) &&
  decide (¬(m.b > o.b + tolerance ∨ m.b < o.b - tolerance)) &&
  decide (¬(m.c > o.c + tolerance ∨ m.c < o.c - tolerance)) &&
  decide (¬(m.d > o.d + tolerance ∨ m.d < o.d - tolerance)) &&
  decide (¬(m.e > o.e + tolerance ∨ m.e < o.e - tolerance)) &&
  decide (¬(m.f > o.f + tolerance ∨ m.f < o.f - tolerance))

/-- The record produced by `Neo.decompose` (source field order:
translateX, translateY, scaleX, scaleY, shear, rotate, rotationRads,
rotationDegs; `rotate` is in radians and `rotationRads` duplicates it). -/
structure Decomposed where
  translateX : ℝ
  translateY : ℝ
  scaleX : ℝ
  scaleY : ℝ
  shear : ℝ
  rotate : ℝ
  rotationRads : ℝ
  rotationDegs : ℝ
deriving DecidableEq

/-- Source: `Neo.decompose` — returns `false` (modelled `none`) iff
`a*d - b*c === 0`; otherwise reads the translation off `(e, f)`, takes
`mag = sqrt(a^2 + b^2)` as scaleX, normalizes the x-axis vector,
projects the y-axis vector onto it (`scaledShear`), deshears, takes the
magnitude of the desheared y-axis vector as scaleY, divides for the
shear, and resolves the rotation angle by the sign of the normalized b
(`sinA >= 0` branch).  `rotationDegs` multiplies by the exact
`180 / Math.PI`. -/
def decompose (m : Neo) : Option Decomposed :=
  if m.a * m.d - m.b * m.c = 0 then none
  else
    let mag := Real.sqrt (m.a * m.a + m.b * m.b)
    let a := m.a / mag
    let b := m.b / mag
    let scaledShear := a * m.c + b * m.d
    let desheared0 := a * -scaledShear + m.c
    let desheared1 := b * -scaledShear + m.d
    let scaleY := Real.sqrt (desheared0 * desheared0 + desheared1 * desheared1)
    let shear := scaledShear / scaleY
    let rot := if 0 ≤ b then Real.arccos a else 2 * Real.pi - Real.arccos a
    some ⟨m.e, m.f, mag, scaleY, shear, rot, rot, rot * (180 / Real.pi)⟩

/-- Modelled from the spec (§4.1, §7): a checked inverse that fails with
`SingularMatrix` (here `none`) when the determinant is exactly zero and
otherwise returns the standard affine inverse; named for comparison with
the source's `inverse`, which performs no such check. -/
def invertSpec (m : Neo) : Option Neo :=
  if m.a * m.d - m.c * m.b = 0 then none
  else
    let determinant := m.a * m.d - m.c * m.b
    some ⟨m.d / determinant,
          -m.b / determinant,
          -m.c / determinant,
          m.a / determinant,
          (m.c * m.f - m.e * m.d) / determinant,
          (m.e * m.b - m.a * m.f) / determinant⟩

end Neo

namespace Neo

/-! The transform-string codec.  A matched transform function of
`Neo.fromString` is modelled as a `TransformCall` with its numeric
arguments (optional arguments model omitted parameters). -/

/-- A transform function call matched by the `fromString` pattern; one
constructor per name in the source's `transformTypes` table. -/
inductive TransformCall where
  | translate (tx ty : ℝ)
  | translateX (tx : ℝ)
  | translateY (ty : ℝ)
  | scale (sx : ℝ) (sy : Option ℝ) (pivot : Option (ℝ × ℝ))
  | scaleX (sx : ℝ)
  | scaleY (sy : ℝ)
  | rotate (r : ℝ) (pivot : Option (ℝ × ℝ))
  | skewX (ax : ℝ)
  | skewY (ay : ℝ)
  | matrixC (a b c d e f : ℝ)

/-- Source: the dispatch `matrix[ type ].apply( matrix, parameters )`
(and `matrix.multiply.apply` for `matrix(...)`): the builder method named
by the matched transform type, applied to the matched parameters. -/
def applyCall (m : Neo) : TransformCall → Neo
  | .translate tx ty => m.translate tx ty
  | .translateX tx => m.translateXM tx
  | .translateY ty => m.translateYM ty
  | .scale sx sy pivot => m.scale sx sy pivot
  | .scaleX sx => m.scaleXM sx
  | .scaleY sy => m.scaleYM sy
  | .rotate r pivot => m.rotate r pivot
  | .skewX ax => m.skewX ax
  | .skewY ay => m.skewY ay
  | .matrixC a b c d e f => m.multiply ⟨a, b, c, d, e, f⟩

/-- Source: `Neo.fromString` — starts from `new Neo()` (identity) and loops
over the matches.  The loop body evaluates `matrix[ type ].apply( matrix,
parameters )` as a bare expression statement: the new matrix the builder
returns is computed and immediately discarded (none of the builder methods
mutate their receiver, and `matrix` is never reassigned), so the function
returns the untouched identity accumulator. -/
def fromString (calls : List TransformCall) : Neo :=
  calls.foldl (fun matrix call =>
    let _ := applyCall matrix call
    matrix) identityM

/-- The angle units recognised by `getParameters` (regex alternation
`/grad|rad|deg|turn/`). -/
inductive AngleUnit where
  | grad
  | rad
  | deg
  | turn

/-- Source: the `switch ( angleUnit )` in `getParameters`, with
`rad2deg = 180 / Math.PI`, `grad2deg = 200 / Math.PI`, `turn2deg = 360`;
a `deg` suffix falls through the switch unconverted. -/
def convertAngle (angle : ℝ) : AngleUnit → ℝ
  | .rad => angle * (180 / Real.pi)
  | .grad => angle * (200 / Real.pi)
  | .turn => angle * 360
  | .deg => angle

/-- A numeric parameter's suffix in the transform string: no suffix, a
`px` suffix, or an angle unit. -/
inductive Suffix where
  | bare
  | px
  | angle (u : AngleUnit)

/-- Source: one iteration of the `getParameters` loop, acting on a
parameter whose numeric part is `v`: a `px` suffix is stripped
(`replace( 'px', '' )`) leaving the number unchanged; an angle suffix is
converted by the switch; otherwise the number passes through. -/
def parseParameter (v : ℝ) : Suffix → ℝ
  | .bare => v
  | .px => v
  | .angle u => convertAngle v u

/-! Serialization (`toCSSString`).  Numbers cannot be rendered to strings
over `ℝ`, so the output is modelled as the list of emitted transform-
function tokens, in the exact order of the source's `join`; the numeric
payload of a token is the value after the source's `s()` rounding
(`+float.toFixed( precision )`, i.e. rounding to `precision` decimal
digits, half away from zero for the positive values involved). -/

/-- One emitted transform-function token of `toCSSString`. -/
inductive Token where
  | translate (x y : ℝ)
  | translateX (x : ℝ)
  | translateY (y : ℝ)
  | rotate (deg : ℝ)
  | scale (x : ℝ) (y : Option ℝ)
  | skewX (deg : ℝ)
  | scaleX (s : ℝ)
  | scaleY (s : ℝ)

/-- The kind of a token, for stating order properties. -/
inductive TokenKind where
  | translate
  | translateX
  | translateY
  | rotate
  | scale
  | skewX
  | scaleX
  | scaleY
deriving DecidableEq

/-- Kind of each token. -/
def kindOf : Token → TokenKind
  | .translate _ _ => .translate
  | .translateX _ => .translateX
  | .translateY _ => .translateY
  | .rotate _ => .rotate
  | .scale _ _ => .scale
  | .skewX _ => .skewX
  | .scaleX _ => .scaleX
  | .scaleY _ => .scaleY

/-- Position of each token kind in the source's fixed `join` order
(line order: translate, translateX, translateY, rotate, scale, skewX,
scaleX, scaleY). -/
def rankK : TokenKind → ℕ
  | .translate => 0
  | .translateX => 1
  | .translateY => 2
  | .rotate => 3
  | .scale => 4
  | .skewX => 5
  | .scaleX => 6
  | .scaleY => 7

/-- Source: the radians-to-degrees factor `57.29577951308232` used by
`toCSSString` (a truncation of 180/pi, kept exactly as written). -/
def r2d : ℝ := 57.29577951308232

/-- Source: `s( float ) = +( float.toFixed( precision ) )` — rounds to
`p` decimal digits (JavaScript `toFixed` picks the closest multiple of
`10^-p`, preferring the larger on ties, which `round = ⌊x + 1/2⌋`
matches for the nonnegative values at issue); the unary `+` strips the
trailing zeros, so equal rounded values compare equal. -/
def roundp (p : ℕ) (x : ℝ) : ℝ :=
  ((round (x * 10 ^ p) : ℤ) : ℝ) / 10 ^ p

/-- The token list assembled by `toCSSString` from the six candidate
values, in the source's `join` order.  At most one of the three
translate slots is nonempty (both present collapse into `translate`,
line 387), and likewise for the scale slots (line 375: both present
collapse into a single `scale`, which renders one value when the rounded
values are strictly equal), so each group is written as one match. -/
def buildToks (otX otY orot osX osY oskew : Option ℝ) : List Token :=
  (match otX, otY with
   | some x, some y => [Token.translate x y]
   | some x, none => [Token.translateX x]
   | none, some y => [Token.translateY y]
   | none, none => []) ++
  (match orot with
   | some v => [Token.rotate v]
   | none => []) ++
  (match osX, osY with
   | some x, some y => [Token.scale x (if x = y then none else some y)]
   | some _, none => []
   | none, some _ => []
   | none, none => []) ++
  (match oskew with
   | some v => [Token.skewX v]
   | none => []) ++
  (match osX, osY with
   | some x, none => [Token.scaleX x]
   | none, some y => [Token.scaleY y]
   | some _, some _ => []
   | none, none => [])

/-- Source: the `if ( rotate === '360deg' ) { rotate = false; }` test:
a present rotate candidate whose rounded degree value is exactly 360 is
dropped. -/
def filter360 (o : Option ℝ) : Option ℝ :=
  match o with
  | some v => if v = 360 then none else some v
  | none => none

/-- Source: `toCSSString( precision )` as a token list.  `precision || 7`
defaults a missing or zero precision to 7; `limit = 1e-precision`.  Each
candidate is emitted only when its decomposed value is outside `limit` of
its neutral value (for `rotate`, the window `limit < rotate < 360 - limit`
on the radian value, followed by the `rotate === '360deg'` string test,
which holds exactly when the rounded degree value equals 360).  On an
undecomposable matrix the source has already read `d.rotate` off the
boolean `false` before its `if ( d )` guard, throwing a TypeError;
that call is modelled as `none`. -/
def toCSSTokens (m : Neo) (oprec : Option ℕ) : Option (List Token) :=
  match m.decompose with
  | none => none
  | some d =>
    let p : ℕ := match oprec with
      | none => 7
      | some k => if k = 0 then 7 else k
    let limit : ℝ := 1 / 10 ^ p
    let rotateV : Option ℝ :=
      if limit < d.rotate ∧ d.rotate < 360 - limit
      then some (roundp p (d.rotate * r2d)) else none
    let rotateV' : Option ℝ := filter360 rotateV
    let skewXV : Option ℝ :=
      if limit < d.shear ∨ d.shear < -limit
      then some (roundp p (Real.arctan d.shear * r2d)) else none
    let scaleXV : Option ℝ :=
      if 1 + limit < d.scaleX ∨ d.scaleX < 1 - limit
      then some (roundp p d.scaleX) else none
    let scaleYV : Option ℝ :=
      if 1 + limit < d.scaleY ∨ d.scaleY < 1 - limit
      then some (roundp p d.scaleY) else none
    let translateXV : Option ℝ :=
      if limit < d.translateX ∨ d.translateX < -limit
      then some (roundp p d.translateX) else none
    let translateYV : Option ℝ :=
      if limit < d.translateY ∨ d.translateY < -limit
      then some (roundp p d.translateY) else none
    some (buildToks translateXV translateYV rotateV' scaleXV scaleYV skewXV)

/-! Recomposition of a decomposition result, and the object-level state
model used for the mutation claims. -/

/-- The recomposition formula in the order the claim states it:
`translate(translateX, translateY) ∘ scale(scaleX, scaleY) ∘
skewX(atan(shear)) ∘ rotateRadians(rotationRads)`, rotation innermost and
translation outermost — i.e. the matrix product T·S·K·R built by the
chain below (each builder step right-multiplies its primitive).  The
skew factor is the one whose tangent is `shear`, i.e. `skewXRad` of
`arctan shear`. -/
def recomposeSpecOrder (d : Decomposed) : Neo :=
  (((identityM.translate d.translateX d.translateY).scale d.scaleX
      (some d.scaleY) none).skewXRad (Real.arctan d.shear)).rotateRad
    d.rotationRads

/-- The recomposition order that actually reproduces the matrix (and
matches the source's closing comment read with its own chaining
convention, translation applied last to points): the product T·R·K·S —
scale innermost, then the skew whose tangent is `shear`, then the
rotation, with the translation outermost. -/
def recomposeCodeOrder (d : Decomposed) : Neo :=
  (((identityM.translate d.translateX d.translateY).rotateRad
      d.rotationRads).skewXRad (Real.arctan d.shear)).scale d.scaleX
    (some d.scaleY) none

/-- The `decomposed` property of a Neo instance: unset by the six-argument
constructor (`undef`), set to the zeroed record by `reset()` (`resetRec`),
set to `{}` by `set()` (`emptyRec`), and set to the decomposition result
(`false` for a singular matrix, modelled by `val none`) by the
`decompose()` method. -/
inductive Cache where
  | undef
  | resetRec
  | emptyRec
  | val (r : Option Decomposed)

/-- A Neo instance: its `elements` array together with its `decomposed`
property. -/
structure NeoObj where
  elements : Neo
  decomposed : Cache

/-- Source: `new Neo( a, b, c, d, e, f )` — assigns `this.elements` only;
`this.decomposed` is left unset. -/
def NeoObj.fromComponents (a b c d e f : ℝ) : NeoObj :=
  ⟨⟨a, b, c, d, e, f⟩, Cache.undef⟩

/-- Source: the `multiply` method as a state transformer — it reads
`this.elements` and `o.elements`, builds the result in a fresh
`new Neo()` (whose constructor runs `reset()`, then has its elements
replaced), and assigns nothing on the receiver or the argument; returns
(receiver after the call, argument after the call, result). -/
def NeoObj.multiplyM (s o : NeoObj) : NeoObj × NeoObj × NeoObj :=
  (s, o, ⟨s.elements.multiply o.elements, Cache.resetRec⟩)

/-- Source: the `translate` method — delegates to `multiply`; no
assignment to the receiver. -/
def NeoObj.translateM (s : NeoObj) (tx ty : ℝ) : NeoObj × NeoObj :=
  (s, ⟨s.elements.translate tx ty, Cache.resetRec⟩)

/-- Source: the `scale` method — delegates to `translate`/`multiply`; no
assignment to the receiver. -/
def NeoObj.scaleM (s : NeoObj) (sx : ℝ) (osy : Option ℝ)
    (pivot : Option (ℝ × ℝ)) : NeoObj × NeoObj :=
  (s, ⟨s.elements.scale sx osy pivot, Cache.resetRec⟩)

/-- Source: the `rotate` method — delegates to `rotateRad`/`multiply`; no
assignment to the receiver. -/
def NeoObj.rotateM (s : NeoObj) (r : ℝ) (pivot : Option (ℝ × ℝ)) :
    NeoObj × NeoObj :=
  (s, ⟨s.elements.rotate r pivot, Cache.resetRec⟩)

/-- Source: the `inverse` method — builds the result in a fresh
`new Neo()` whose element array it overwrites in place; no assignment to
the receiver. -/
def NeoObj.inverseM (s : NeoObj) : NeoObj × NeoObj :=
  (s, ⟨s.elements.inverse, Cache.resetRec⟩)

/-- Source: the `decompose` method — `this.decomposed = Neo.decompose(
this ); return this.decomposed;` — it writes the decomposition result
into the receiver's `decomposed` property before returning it. -/
def NeoObj.decomposeM (s : NeoObj) : NeoObj × Option Decomposed :=
  (⟨s.elements, Cache.val (Neo.decompose s.elements)⟩,
   Neo.decompose s.elements)

/-! Formalizations of the claims that turn out to be false, stated the
way the claims are written, so that their refutations are explicit. -/

/-- Claim C1 as stated: recomposing `decompose(M)` in the order
translate ∘ scale ∘ skewX ∘ rotate (rotation innermost) reproduces every
non-singular `M` within the 1e-6 tolerance. -/
def C1Claim : Prop :=
  ∀ (m : Neo) (d : Decomposed), m.a * m.d - m.b * m.c ≠ 0 →
    Neo.decompose m = some d →
    Neo.equals (recomposeSpecOrder d) m (some 1e-6) = true

/-- Claim C4 as stated: whenever the decomposed rotation is within
1e-7 of a multiple of 360 degrees, the serialized token list contains no
rotate token. -/
def C4Claim : Prop :=
  ∀ (m : Neo) (d : Decomposed) (toks : List Token),
    Neo.decompose m = some d → toCSSTokens m none = some toks →
    ∀ k : ℤ, |d.rotationDegs - 360 * k| ≤ 1e-7 →
      ∀ v, Token.rotate v ∉ toks

/-- Claim C6 as stated (second half): in a serialized token list, no
scale token — including the un-collapsed scaleX / scaleY forms — ever
appears after the skewX token. -/
def C6Claim : Prop :=
  ∀ (m : Neo) (toks : List Token), toCSSTokens m none = some toks →
    toks.Pairwise (fun s t => kindOf s = TokenKind.skewX →
      kindOf t ≠ TokenKind.scale ∧ kindOf t ≠ TokenKind.scaleX ∧
        kindOf t ≠ TokenKind.scaleY)

/-- The 360-degree rotation of the identity, `rotate(360)`: the input of
the spec's literal scenario 5. -/
def M360 : Neo := identityM.rotate 360 none

/-- The rotation angle (radians) of the C4 counterexample: exactly
360 - 8e-8 degrees, i.e. within 1e-7 degrees of a full turn. -/
def theta0 : ℝ := (360 - 8e-8) * (Real.pi / 180)

/-- The C4 counterexample matrix: the pure rotation by `theta0`. -/
def Mtheta0 : Neo :=
  ⟨Real.cos theta0, Real.sin theta0, -Real.sin theta0, Real.cos theta0, 0, 0⟩

end Neo

/-! Helper lemmas (shared; none of these is a claim theorem). -/

/-- Multiplying the identity by any matrix gives that matrix back. -/
lemma identityM_multiply (o : Neo) : Neo.identityM.multiply o = o := by
  cases o
  simp [Neo.multiply, Neo.identityM]

/-- The 360-filter on a present rotate candidate. -/
lemma filter360_some (x : ℝ) :
    Neo.filter360 (some x) = if x = 360 then none else some x := rfl

/-- The 360-filter on an absent rotate candidate. -/
lemma filter360_none : Neo.filter360 none = none := rfl

/-- The source's `equals` accepts a matrix against itself at any positive
tolerance. -/
lemma equals_self (m : Neo) (t : ℝ) (ht : 0 < t) :
    Neo.equals m m (some t) = true := by
  have hne : t ≠ 0 := ne_of_gt ht
  simp only [Neo.equals, hne, if_false, Bool.and_eq_true, decide_eq_true_eq]
  refine ⟨⟨⟨⟨⟨?_, ?_⟩, ?_⟩, ?_⟩, ?_⟩, ?_⟩ <;> (rintro (h | h) <;> linarith)

/-- Claim C7: `decompose(M)` fails (returns the Undecomposable result) iff
`a*d - b*c` equals 0 exactly; in particular `fromComponents(1,0,0,0,0,0)`
fails to decompose, and decomposition succeeds with a component record for
every matrix of nonzero determinant. -/
theorem decompose_none_iff_det_zero :
    (∀ m : Neo, Neo.decompose m = none ↔ m.a * m.d - m.b * m.c = 0) ∧
    Neo.decompose ⟨1, 0, 0, 0, 0, 0⟩ = none ∧
    (∀ m : Neo, m.a * m.d - m.b * m.c ≠ 0 → ∃ r, Neo.decompose m = some r) := by
  refine ⟨fun m => ?_, ?_, fun m h => ?_⟩
  · unfold Neo.decompose
    by_cases h : m.a * m.d - m.b * m.c = 0 <;> simp [h]
  · unfold Neo.decompose
    norm_num
  · unfold Neo.decompose
    simp [h]

/-- Claim C8 counterexample: `scale(2, 0)` does not multiply by the
primitive `[2,0,0,0,0,0]` — the `sy = sy || sx` line treats the explicit
0 as omitted, so it multiplies by `[2,0,0,2,0,0]` instead. -/
theorem scale_zero_sy_counterexample :
    Neo.identityM.scale 2 (some 0) none ≠
      Neo.identityM.multiply ⟨2, 0, 0, 0, 0, 0⟩ := by
  simp only [Neo.scale, Neo.multiply, Neo.identityM]
  norm_num

/-- Claim C8 amended: with no pivot, `scale(sx, sy)` multiplies the
receiver by the primitive `[sx,0,0,sy,0,0]`, with the second argument
defaulting to `sx` both when it is omitted and when it is the falsy
number 0; in particular `scale(2, 0)` multiplies by `[2,0,0,2,0,0]`. -/
theorem scale_no_pivot (m : Neo) (sx sy : ℝ) (hsy : sy ≠ 0) :
    m.scale sx (some sy) none = m.multiply ⟨sx, 0, 0, sy, 0, 0⟩ ∧
    m.scale sx none none = m.multiply ⟨sx, 0, 0, sx, 0, 0⟩ ∧
    m.scale sx (some 0) none = m.multiply ⟨sx, 0, 0, sx, 0, 0⟩ := by
  refine ⟨?_, rfl, ?_⟩
  · simp [Neo.scale, hsy]
  · simp [Neo.scale]

/-- Claim C8 witness: the amended statement at `m = identity`, `sx = 2`,
`sy = 3`. -/
theorem scale_no_pivot_witness :
    Neo.identityM.scale 2 (some 3) none =
      Neo.identityM.multiply ⟨2, 0, 0, 3, 0, 0⟩ ∧
    Neo.identityM.scale 2 none none =
      Neo.identityM.multiply ⟨2, 0, 0, 2, 0, 0⟩ ∧
    Neo.identityM.scale 2 (some 0) none =
      Neo.identityM.multiply ⟨2, 0, 0, 2, 0, 0⟩ :=
  scale_no_pivot Neo.identityM 2 3 (by norm_num)

/-- Claim C10: `equals` treats a falsy tolerance as unspecified — an
explicit tolerance of 0 compares with the default 1e-7 instead of
exactly, so matrices whose six components each differ by less than 1e-7
are reported equal even when zero tolerance was requested. -/
theorem equals_zero_tolerance :
    (∀ m o : Neo, Neo.equals m o (some 0) = Neo.equals m o none) ∧
    (∀ m o : Neo,
      |m.a - o.a| < 1e-7 → |m.b - o.b| < 1e-7 → |m.c - o.c| < 1e-7 →
      |m.d - o.d| < 1e-7 → |m.e - o.e| < 1e-7 → |m.f - o.f| < 1e-7 →
      Neo.equals m o (some 0) = true) := by
  constructor
  · intro m o
    simp [Neo.equals]
  · intro m o h1 h2 h3 h4 h5 h6
    rw [abs_lt] at h1 h2 h3 h4 h5 h6
    simp only [Neo.equals, if_pos rfl, Bool.and_eq_true, decide_eq_true_eq]
    refine ⟨⟨⟨⟨⟨?_, ?_⟩, ?_⟩, ?_⟩, ?_⟩, ?_⟩ <;>
      (rintro (h | h) <;> [skip; skip] <;> norm_num at h ⊢ <;> linarith)

/-- Claim C10 witness: two matrices differing by 1e-8 in the first
component compare equal under an explicit zero tolerance. -/
theorem equals_zero_tolerance_witness :
    Neo.equals ⟨1, 0, 0, 1, 0, 0⟩ ⟨1 + 1e-8, 0, 0, 1, 0, 0⟩ (some 0) = true :=
  equals_zero_tolerance.2 ⟨1, 0, 0, 1, 0, 0⟩ ⟨1 + 1e-8, 0, 0, 1, 0, 0⟩
    (by norm_num [abs_of_pos, abs_of_nonneg]) (by norm_num) (by norm_num)
    (by norm_num) (by norm_num) (by norm_num)

/-- Claim C3 counterexample: on the exactly-singular matrix
`(1,0,0,0,0,0)` the spec-modelled checked inverse fails, but the
source's `inverse` surfaces no failure at all — it has no determinant
check and plainly returns a matrix built from divisions by the zero
determinant (Infinity/NaN components in JavaScript; with the `x / 0 = 0`
convention used here, the zero matrix — in either case a silently
produced default-like matrix, never an explicit failure result). -/
theorem inverse_singular_counterexample :
    Neo.invertSpec ⟨1, 0, 0, 0, 0, 0⟩ = none ∧
    Neo.inverse ⟨1, 0, 0, 0, 0, 0⟩ = ⟨0, 0, 0, 0, 0, 0⟩ := by
  constructor
  · simp [Neo.invertSpec]
  · simp [Neo.inverse]

/-- Claim C3 amended: `invert()` performs no singularity check and never
signals an error; for every matrix with nonzero determinant `a·d − c·b`
it returns the standard closed-form affine inverse (it agrees with the
checked spec-modelled inverse, and composes with the original to the
identity on both sides). -/
theorem inverse_nonsingular (m : Neo) (hdet : m.a * m.d - m.c * m.b ≠ 0) :
    Neo.invertSpec m = some m.inverse ∧
    m.multiply m.inverse = Neo.identityM ∧
    m.inverse.multiply m = Neo.identityM := by
  refine ⟨?_, ?_, ?_⟩
  · rw [Neo.invertSpec, if_neg hdet]
    rfl
  · simp only [Neo.multiply, Neo.inverse, Neo.identityM, Neo.mk.injEq]
    refine ⟨?_, ?_, ?_, ?_, ?_, ?_⟩ <;> field_simp <;> ring
  · simp only [Neo.multiply, Neo.inverse, Neo.identityM, Neo.mk.injEq]
    refine ⟨?_, ?_, ?_, ?_, ?_, ?_⟩ <;> field_simp <;> ring

/-- Claim C3 witness: the amended statement at the nonsingular matrix
`(2,0,0,2,50,50)`. -/
theorem inverse_nonsingular_witness :
    Neo.invertSpec ⟨2, 0, 0, 2, 50, 50⟩ =
      some (Neo.inverse ⟨2, 0, 0, 2, 50, 50⟩) ∧
    Neo.multiply ⟨2, 0, 0, 2, 50, 50⟩ (Neo.inverse ⟨2, 0, 0, 2, 50, 50⟩) =
      Neo.identityM ∧
    Neo.multiply (Neo.inverse ⟨2, 0, 0, 2, 50, 50⟩) ⟨2, 0, 0, 2, 50, 50⟩ =
      Neo.identityM :=
  inverse_nonsingular ⟨2, 0, 0, 2, 50, 50⟩ (by norm_num)

/-- Claim C2: the parse loop evaluates `matrix[ type ].apply( matrix,
parameters )` without ever assigning the returned matrix, so the
accumulator stays the identity no matter what was matched:
`parse("scale(2),translate(50,100)")` returns the identity, while the
builder chain `scale(2).translate(50,100)` it was supposed to equal
yields `(2,0,0,2,100,200)`. -/
theorem fromString_discards_all_calls :
    Neo.fromString
      [Neo.TransformCall.scale 2 none none,
       Neo.TransformCall.translate 50 100] = Neo.identityM ∧
    Neo.applyCall
      (Neo.applyCall Neo.identityM (Neo.TransformCall.scale 2 none none))
      (Neo.TransformCall.translate 50 100) = ⟨2, 0, 0, 2, 100, 200⟩ := by
  constructor
  · rfl
  · simp only [Neo.applyCall, Neo.scale, Neo.translate, Neo.multiply,
      Neo.identityM, Neo.mk.injEq]
    norm_num

/-- Claim C9 counterexample: calling `decompose()` on the instance built
from components `(2,0,0,2,50,50)` mutates its receiver — the receiver's
`decomposed` property changes from unset to the cached decomposition
result. -/
theorem decompose_mutates_receiver :
    (Neo.NeoObj.fromComponents 2 0 0 2 50 50).decomposeM.1 ≠
      Neo.NeoObj.fromComponents 2 0 0 2 50 50 := by
  intro h
  have h2 := congrArg Neo.NeoObj.decomposed h
  simp only [Neo.NeoObj.decomposeM, Neo.NeoObj.fromComponents] at h2
  rw [Neo.decompose] at h2
  split at h2
  · norm_num at *
  · exact Neo.Cache.noConfusion h2

/-- Claim C9 amended: `multiply`, `translate`, `scale`, `rotate` and
`invert` leave every field of their receiver (and, for `multiply`, of
their argument) unchanged and return the result as a fresh instance;
`decompose` leaves the `elements` of its receiver unchanged but does
mutate the receiver, overwriting its `decomposed` property with the
decomposition result. -/
theorem methods_receiver_state (s o : Neo.NeoObj) (tx ty sx r : ℝ)
    (osy : Option ℝ) (piv rpiv : Option (ℝ × ℝ)) :
    (s.multiplyM o).1 = s ∧ (s.multiplyM o).2.1 = o ∧
    (s.translateM tx ty).1 = s ∧
    (s.scaleM sx osy piv).1 = s ∧
    (s.rotateM r rpiv).1 = s ∧
    s.inverseM.1 = s ∧
    s.decomposeM.1.elements = s.elements ∧
    s.decomposeM.1.decomposed = Neo.Cache.val (Neo.decompose s.elements) :=
  ⟨rfl, rfl, rfl, rfl, rfl, rfl, rfl, rfl⟩

/-- Claim C5: evaluating the parameter conversion at the failing input
`1grad`.  The source's `grad2deg` ratio is `200 / Math.PI` (the number of
gradians per radian), not the claimed `180 / 200 = 0.9` degrees per
gradian, so a 1-gradian argument reaches the builder as `200/π ≈ 63.66`
degrees instead of `0.9`; the `rad`, `turn` and `px` parts of the claim
do match the source. -/
theorem grad_conversion_bug :
    Neo.parseParameter 1 (Neo.Suffix.angle Neo.AngleUnit.grad) =
      200 / Real.pi ∧
    200 / Real.pi ≠ 0.9 ∧
    Neo.parseParameter 1 (Neo.Suffix.angle Neo.AngleUnit.rad) =
      180 / Real.pi ∧
    Neo.parseParameter 1 (Neo.Suffix.angle Neo.AngleUnit.turn) = 360 ∧
    Neo.parseParameter 1 Neo.Suffix.px = 1 := by
  refine ⟨by simp [Neo.parseParameter, Neo.convertAngle], ?_,
    by simp [Neo.parseParameter, Neo.convertAngle],
    by simp [Neo.parseParameter, Neo.convertAngle],
    by simp [Neo.parseParameter]⟩
  intro h
  have hπ : (0 : ℝ) < Real.pi := Real.pi_pos
  rw [div_eq_iff (ne_of_gt hπ)] at h
  nlinarith [Real.pi_lt_four]

/-- Cosine and sine of the source's branch-resolved angle: for a point
`(x, y)` on the unit circle, the angle `arccos x` (when `0 ≤ y`) or
`2π - arccos x` (otherwise) has cosine `x` and sine `y`. -/
lemma cos_sin_branch (x y : ℝ) (h : x ^ 2 + y ^ 2 = 1) :
    Real.cos (if 0 ≤ y then Real.arccos x else 2 * Real.pi - Real.arccos x)
      = x ∧
    Real.sin (if 0 ≤ y then Real.arccos x else 2 * Real.pi - Real.arccos x)
      = y := by
  have hxabs : |x| ≤ 1 := by nlinarith [sq_abs x, sq_nonneg y, abs_nonneg x]
  have hx1 : -1 ≤ x := (abs_le.mp hxabs).1
  have hx2 : x ≤ 1 := (abs_le.mp hxabs).2
  have hs : Real.sqrt (1 - x ^ 2) = |y| := by
    rw [show 1 - x ^ 2 = y ^ 2 by linarith]
    exact Real.sqrt_sq_eq_abs y
  split_ifs with hy
  · exact ⟨Real.cos_arccos hx1 hx2, by
      rw [Real.sin_arccos, hs, abs_of_nonneg hy]⟩
  · push_neg at hy
    constructor
    · rw [Real.cos_two_pi_sub, Real.cos_arccos hx1 hx2]
    · rw [Real.sin_two_pi_sub, Real.sin_arccos, hs, abs_of_neg hy, neg_neg]

/-- Evaluation of `decompose` at the C1 counterexample matrix
`(0, 2, -3, 0, 0, 0)` (the rotation by 90° composed with `scale(2,3)`):
scaleX 2, scaleY 3, no shear, rotation π/2. -/
lemma decompose_M0 : Neo.decompose ⟨0, 2, -3, 0, 0, 0⟩ =
    some ⟨0, 0, 2, 3, 0, Real.pi / 2, Real.pi / 2, 90⟩ := by
  have h4 : Real.sqrt (4 : ℝ) = 2 := by
    rw [show (4 : ℝ) = 2 ^ 2 by norm_num]
    exact Real.sqrt_sq (by norm_num)
  have h9 : Real.sqrt (9 : ℝ) = 3 := by
    rw [show (9 : ℝ) = 3 ^ 2 by norm_num]
    exact Real.sqrt_sq (by norm_num)
  simp only [Neo.decompose]
  rw [if_neg (by norm_num)]
  norm_num [h4]
  refine ⟨h9, ?_⟩
  field_simp
  ring

/-- Evaluation of the claim-ordered recomposition at the decomposition of
the C1 counterexample matrix: it yields `(0, 3, -2, 0, 0, 0)`, which has
the scales 2 and 3 attached to the wrong axes. -/
lemma recomposeSpecOrder_M0 :
    Neo.recomposeSpecOrder ⟨0, 0, 2, 3, 0, Real.pi / 2, Real.pi / 2, 90⟩ =
      ⟨0, 3, -2, 0, 0, 0⟩ := by
  simp only [Neo.recomposeSpecOrder, Neo.translate, Neo.scale, Neo.skewXRad,
    Neo.rotateRad, Neo.multiply, Neo.identityM]
  rw [if_neg (by norm_num : (3 : ℝ) ≠ 0)]
  norm_num [Real.arctan_zero, Real.tan_zero, Real.cos_pi_div_two,
    Real.sin_pi_div_two]

/-- Claim C1 counterexample: recomposing in the claimed order
translate ∘ scale ∘ skewX ∘ rotate (rotation innermost) does not
reproduce the non-singular matrix `(0, 2, -3, 0, 0, 0)` within the 1e-6
tolerance — scale and rotation do not commute, so the scales end up on
the wrong axes (`(0, 3, -2, 0, 0, 0)` instead). -/
theorem recompose_spec_order_fails : ¬ Neo.C1Claim := by
  intro h
  have h0 := h ⟨0, 2, -3, 0, 0, 0⟩ ⟨0, 0, 2, 3, 0, Real.pi / 2, Real.pi / 2, 90⟩
    (by norm_num) decompose_M0
  rw [recomposeSpecOrder_M0] at h0
  simp only [Neo.equals, Bool.and_eq_true, decide_eq_true_eq] at h0
  norm_num at h0

/-- Claim C1 amended: for every matrix with positive determinant
`a·d − b·c > 0`, recomposing the components of `decompose(M)` in the
order translate ∘ rotate ∘ skewX(atan(shear)) ∘ scale — scale innermost
and translation outermost, the order opposite to the claimed one —
reproduces `M` exactly, hence within the 1e-6 equality tolerance.
(Matrices with negative determinant, e.g. reflections, are not
reproduced by any order: the decomposition only emits nonnegative
scales.) -/
theorem recompose_translate_rotate_skew_scale (m : Neo) (d : Neo.Decomposed)
    (hdet : 0 < m.a * m.d - m.b * m.c)
    (hd : Neo.decompose m = some d) :
    Neo.recomposeCodeOrder d = m ∧
    Neo.equals (Neo.recomposeCodeOrder d) m (some 1e-6) = true := by
  have key : Neo.recomposeCodeOrder d = m := by
    obtain ⟨A, B, C, D, E, F⟩ := m
    simp only at hdet
    have hne : A * D - B * C ≠ 0 := ne_of_gt hdet
    simp only [Neo.decompose] at hd
    rw [if_neg hne] at hd
    obtain rfl := Option.some.inj hd
    set mag := Real.sqrt (A * A + B * B) with hmagdef
    have hCD : (0 : ℝ) ≤ C * C + D * D := by nlinarith [sq_nonneg C, sq_nonneg D]
    have hid : (A * D - B * C) ^ 2 + (A * C + B * D) ^ 2 =
        (A * A + B * B) * (C * C + D * D) := by ring
    have hsum : 0 < A * A + B * B := by
      nlinarith [mul_pos hdet hdet, sq_nonneg (A * C + B * D)]
    have hmag : 0 < mag := Real.sqrt_pos.mpr hsum
    have hmagne : mag ≠ 0 := ne_of_gt hmag
    have hmagsq : mag ^ 2 = A * A + B * B := Real.sq_sqrt hsum.le
    set x := A / mag with hx
    set y := B / mag with hy
    have hAx : x * mag = A := by rw [hx]; exact div_mul_cancel₀ A hmagne
    have hBy : y * mag = B := by rw [hy]; exact div_mul_cancel₀ B hmagne
    rw [← hAx, ← hBy] at hdet ⊢
    have hunit : x ^ 2 + y ^ 2 = 1 := by
      rw [hx, hy]
      field_simp
      rw [hmagsq]
      ring
    have hSY : 0 < x * D - y * C := by nlinarith [hdet, hmag]
    have hinner : (x * -(x * C + y * D) + C) * (x * -(x * C + y * D) + C) +
        (y * -(x * C + y * D) + D) * (y * -(x * C + y * D) + D) =
        (x * D - y * C) ^ 2 := by
      linear_combination ((x * C + y * D) ^ 2 - C ^ 2 - D ^ 2) * hunit
    have hs : Real.sqrt
        ((x * -(x * C + y * D) + C) * (x * -(x * C + y * D) + C) +
          (y * -(x * C + y * D) + D) * (y * -(x * C + y * D) + D)) =
        x * D - y * C := by
      rw [hinner]
      exact Real.sqrt_sq hSY.le
    rw [hs]
    obtain ⟨hcos, hsin⟩ := cos_sin_branch x y hunit
    clear hd hx hy hid hCD hne hdet
    clear_value x y mag
    simp only [Neo.recomposeCodeOrder, Neo.translate, Neo.rotateRad,
      Neo.skewXRad, Neo.scale, Neo.multiply, Neo.identityM]
    rw [if_neg hSY.ne']
    rw [hcos, hsin, Real.tan_arctan]
    simp only [Neo.mk.injEq]
    refine ⟨?_, ?_, ?_, ?_, ?_, ?_⟩
    · ring
    · ring
    · field_simp
      linear_combination C * hunit
    · field_simp
      linear_combination D * hunit
    · ring
    · ring
  refine ⟨key, ?_⟩
  rw [key]
  exact equals_self m 1e-6 (by norm_num)

/-- Claim C1 witness: the amended statement at the positive-determinant
matrix `(0, 2, -3, 0, 0, 0)` and its decomposition. -/
theorem recompose_translate_rotate_skew_scale_witness :
    Neo.recomposeCodeOrder ⟨0, 0, 2, 3, 0, Real.pi / 2, Real.pi / 2, 90⟩ =
      ⟨0, 2, -3, 0, 0, 0⟩ ∧
    Neo.equals
      (Neo.recomposeCodeOrder ⟨0, 0, 2, 3, 0, Real.pi / 2, Real.pi / 2, 90⟩)
      ⟨0, 2, -3, 0, 0, 0⟩ (some 1e-6) = true :=
  recompose_translate_rotate_skew_scale ⟨0, 2, -3, 0, 0, 0⟩
    ⟨0, 0, 2, 3, 0, Real.pi / 2, Real.pi / 2, 90⟩ (by norm_num) decompose_M0

/-- Rounding a value that is already an integer multiple of `10^-p`
returns it unchanged; stated for the integer 2 at precision 7. -/
lemma roundp_two : Neo.roundp 7 2 = 2 := by
  unfold Neo.roundp
  rw [show (2 : ℝ) * 10 ^ 7 = ((20000000 : ℤ) : ℝ) by norm_num, round_intCast]
  norm_num

/-- The token list assembled by `buildToks` is strictly sorted by the
fixed join position of its token kinds, whatever the slot values are. -/
lemma buildToks_sorted (otX otY orot osX osY oskew : Option ℝ) :
    (Neo.buildToks otX otY orot osX osY oskew).Pairwise
      (fun s t => Neo.rankK (Neo.kindOf s) < Neo.rankK (Neo.kindOf t)) := by
  rcases otX with _ | tx <;> rcases otY with _ | ty <;>
    rcases orot with _ | rv <;> rcases osX with _ | sxv <;>
    rcases osY with _ | syv <;> rcases oskew with _ | skv <;>
      simp [Neo.buildToks, Neo.kindOf, Neo.rankK]

/-- A rotate token appears in the assembled list exactly when the
(already 360-filtered) rotate slot holds its value. -/
lemma rotate_mem_buildToks (otX otY orot osX osY oskew : Option ℝ) (v : ℝ) :
    Neo.Token.rotate v ∈ Neo.buildToks otX otY orot osX osY oskew ↔
      orot = some v := by
  rcases otX with _ | tx <;> rcases otY with _ | ty <;>
    rcases orot with _ | rv <;> rcases osX with _ | sxv <;>
    rcases osY with _ | syv <;> rcases oskew with _ | skv <;>
      simp [Neo.buildToks, eq_comm]

/-- Evaluation of `decompose` at the C6 counterexample matrix
`(2, 0, 0.5, 1, 0, 0)` (x-scale 2 with an x-shear 0.5): scaleX 2,
scaleY 1, shear 0.5, no rotation. -/
lemma decompose_M1 : Neo.decompose ⟨2, 0, 0.5, 1, 0, 0⟩ =
    some ⟨0, 0, 2, 1, 0.5, 0, 0, 0⟩ := by
  have h4 : Real.sqrt (4 : ℝ) = 2 := by
    rw [show (4 : ℝ) = 2 ^ 2 by norm_num]
    exact Real.sqrt_sq (by norm_num)
  simp only [Neo.decompose]
  rw [if_neg (by norm_num)]
  norm_num [h4, Real.sqrt_one, Real.arccos_one]

/-- Evaluation of the serializer at the C6 counterexample matrix: the
emitted token list is `skewX(...)` followed by the un-collapsed
`scaleX(2)` — a scale token after the skewX token. -/
lemma toCSSTokens_M1 : Neo.toCSSTokens ⟨2, 0, 0.5, 1, 0, 0⟩ none =
    some [Neo.Token.skewX (Neo.roundp 7 (Real.arctan 0.5 * Neo.r2d)),
          Neo.Token.scaleX 2] := by
  simp only [Neo.toCSSTokens, decompose_M1]
  rw [if_neg (by norm_num : ¬((1:ℝ) / 10 ^ 7 < 0 ∨ (0:ℝ) < -(1 / 10 ^ 7)))]
  rw [if_neg (by norm_num : ¬((1:ℝ) / 10 ^ 7 < 0 ∧ (0:ℝ) < 360 - 1 / 10 ^ 7))]
  rw [if_pos (by norm_num : ((1:ℝ) + 1 / 10 ^ 7 < 2 ∨ (2:ℝ) < 1 - 1 / 10 ^ 7))]
  rw [if_neg (by norm_num : ¬((1:ℝ) + 1 / 10 ^ 7 < 1 ∨ (1:ℝ) < 1 - 1 / 10 ^ 7))]
  rw [if_pos (by norm_num : ((1:ℝ) / 10 ^ 7 < 0.5 ∨ (0.5:ℝ) < -(1 / 10 ^ 7)))]
  simp [Neo.buildToks, Neo.filter360, roundp_two]

/-- Claim C6 counterexample: serializing `(2, 0, 0.5, 1, 0, 0)` (x-scale
2 with shear 0.5) emits `skewX(...) scaleX(2)` — the un-collapsed scaleX
token appears after the skewX token, contradicting the claim that no
scale token ever follows skewX. -/
theorem scaleX_after_skewX : ¬ Neo.C6Claim := by
  intro h
  have h1 := h ⟨2, 0, 0.5, 1, 0, 0⟩
    [Neo.Token.skewX (Neo.roundp 7 (Real.arctan 0.5 * Neo.r2d)),
     Neo.Token.scaleX 2] toCSSTokens_M1
  simp only [List.pairwise_cons, List.mem_singleton, List.mem_cons,
    List.not_mem_nil, List.Pairwise.nil, Neo.kindOf] at h1
  rcases h1 with ⟨h2, -⟩
  have h3 := h2 (Neo.Token.scaleX 2) (Or.inl rfl) trivial
  exact h3.2.1 rfl

/-- Claim C6 amended: the serialized tokens appear in the source's fixed
join order translate, translateX, translateY, rotate, scale, skewX,
scaleX, scaleY (strictly sorted by that position, each kind at most
once): the collapsed two-axis scale token does precede skewX, but when
exactly one axis is scaled the un-collapsed scaleX or scaleY token is
emitted after the skewX token. -/
theorem toCSSTokens_emission_order (m : Neo) (toks : List Neo.Token)
    (h : Neo.toCSSTokens m none = some toks) :
    toks.Pairwise
      (fun s t => Neo.rankK (Neo.kindOf s) < Neo.rankK (Neo.kindOf t)) := by
  rcases hdec : Neo.decompose m with - | d
  · rw [Neo.toCSSTokens, hdec] at h
    exact Option.noConfusion h
  · rw [Neo.toCSSTokens, hdec] at h
    obtain rfl := Option.some.inj h
    exact buildToks_sorted _ _ _ _ _ _

/-- Claim C6 witness: the amended order statement at the matrix
`(2, 0, 0.5, 1, 0, 0)` and its concrete token list. -/
theorem toCSSTokens_emission_order_witness :
    ([Neo.Token.skewX (Neo.roundp 7 (Real.arctan 0.5 * Neo.r2d)),
      Neo.Token.scaleX 2] : List Neo.Token).Pairwise
      (fun s t => Neo.rankK (Neo.kindOf s) < Neo.rankK (Neo.kindOf t)) :=
  toCSSTokens_emission_order ⟨2, 0, 0.5, 1, 0, 0⟩
    [Neo.Token.skewX (Neo.roundp 7 (Real.arctan 0.5 * Neo.r2d)),
     Neo.Token.scaleX 2] toCSSTokens_M1

/-- Decomposition of a pure rotation matrix whose angle lies in (π, 2π):
the determinant is 1, both scales are 1, the shear is 0, and the
negative-sine branch reconstructs the angle itself. -/
lemma decompose_rotmat (r : ℝ) (h1 : Real.pi < r) (h2 : r < 2 * Real.pi) :
    Neo.decompose ⟨Real.cos r, Real.sin r, -Real.sin r, Real.cos r, 0, 0⟩ =
      some ⟨0, 0, 1, 1, 0, r, r, r * (180 / Real.pi)⟩ := by
  have hp : Real.cos r * Real.cos r + Real.sin r * Real.sin r = 1 := by
    nlinarith [Real.sin_sq_add_cos_sq r]
  have hsinneg : Real.sin r < 0 := by
    have hx : 0 < 2 * Real.pi - r := by linarith
    have hxpi : 2 * Real.pi - r < Real.pi := by linarith
    have hpos := Real.sin_pos_of_pos_of_lt_pi hx hxpi
    have hs := Real.sin_two_pi_sub r
    linarith [hpos, hs.symm.le, hs.le]
  have harc : Real.arccos (Real.cos r) = 2 * Real.pi - r := by
    rw [← Real.cos_two_pi_sub, Real.arccos_cos (by linarith) (by linarith)]
  simp only [Neo.decompose]
  rw [if_neg (by nlinarith [Real.sin_sq_add_cos_sq r])]
  rw [show Real.sqrt (Real.cos r * Real.cos r + Real.sin r * Real.sin r) = 1
    from by rw [hp, Real.sqrt_one]]
  simp only [div_one]
  rw [show Real.cos r * -Real.sin r + Real.sin r * Real.cos r = 0 from by ring]
  norm_num
  refine ⟨by nlinarith [Real.sin_sq_add_cos_sq r], ?_, ?_⟩ <;>
    rw [if_neg (not_le.mpr hsinneg), harc] <;> ring

/-- `rotate(360)` of the identity is the pure rotation matrix by the
truncated-constant angle `360 * 0.01745329251994` radians. -/
lemma M360_eq : Neo.M360 =
    ⟨Real.cos (360 * Neo.deg2rad), Real.sin (360 * Neo.deg2rad),
     -Real.sin (360 * Neo.deg2rad), Real.cos (360 * Neo.deg2rad), 0, 0⟩ := by
  simp only [Neo.M360, Neo.rotate, Neo.rotateRad]
  exact identityM_multiply _

/-- The truncated 360° angle lies strictly between π and 2π (it falls
short of 2π by about 1.19e-12, which is why the degree value rounds back
to 360). -/
lemma r360_bounds :
    Real.pi < 360 * Neo.deg2rad ∧ 360 * Neo.deg2rad < 2 * Real.pi := by
  simp only [Neo.deg2rad]
  constructor
  · nlinarith [Real.pi_lt_d4]
  · nlinarith [Real.pi_gt_d20]

/-- Decomposition of `rotate(360)`: unit scales, no shear, no
translation, and the rotation comes back as the truncated angle. -/
lemma decompose_M360 : Neo.decompose Neo.M360 =
    some ⟨0, 0, 1, 1, 0, 360 * Neo.deg2rad, 360 * Neo.deg2rad,
          360 * Neo.deg2rad * (180 / Real.pi)⟩ := by
  rw [M360_eq]
  exact decompose_rotmat _ r360_bounds.1 r360_bounds.2

/-- The degree rendering of the `rotate(360)` decomposition rounds to
exactly 360 at precision 7 (the value is about 359.99999999993). -/
lemma roundp_r360 : Neo.roundp 7 (360 * Neo.deg2rad * Neo.r2d) = 360 := by
  unfold Neo.roundp
  rw [round_eq]
  rw [show ⌊360 * Neo.deg2rad * Neo.r2d * 10 ^ 7 + 1 / 2⌋ = (3600000000 : ℤ)
    from by
      rw [Int.floor_eq_iff]
      simp only [Neo.deg2rad, Neo.r2d]
      constructor <;> norm_num]
  norm_num

/-- The C4 counterexample angle lies strictly between π and 2π. -/
lemma theta0_bounds :
    Real.pi < Neo.theta0 ∧ Neo.theta0 < 2 * Real.pi := by
  simp only [Neo.theta0]
  constructor
  · nlinarith [Real.pi_pos]
  · nlinarith [Real.pi_pos]

/-- Decomposition of the C4 counterexample rotation. -/
lemma decompose_Mtheta0 : Neo.decompose Neo.Mtheta0 =
    some ⟨0, 0, 1, 1, 0, Neo.theta0, Neo.theta0,
          Neo.theta0 * (180 / Real.pi)⟩ := by
  simp only [Neo.Mtheta0]
  exact decompose_rotmat _ theta0_bounds.1 theta0_bounds.2

/-- The decomposed rotation of the C4 counterexample is exactly
360 − 8e-8 degrees. -/
lemma theta0_degs : Neo.theta0 * (180 / Real.pi) = 360 - 8e-8 := by
  simp only [Neo.theta0]
  field_simp

/-- The degree rendering of the C4 counterexample rotation does not
round to 360 at precision 7 (it rounds to 359.9999999). -/
lemma roundp_theta0_ne : Neo.roundp 7 (Neo.theta0 * Neo.r2d) ≠ 360 := by
  have h2 : Neo.theta0 * Neo.r2d * 10 ^ 7 + 1 / 2 < 3600000000 := by
    simp only [Neo.theta0, Neo.r2d]
    nlinarith [Real.pi_lt_d20]
  have hlt : Neo.roundp 7 (Neo.theta0 * Neo.r2d) < 360 := by
    unfold Neo.roundp
    rw [round_eq]
    rw [div_lt_iff₀ (by norm_num : (0 : ℝ) < 10 ^ 7)]
    have h1 : (⌊Neo.theta0 * Neo.r2d * 10 ^ 7 + 1 / 2⌋ : ℝ) ≤
        Neo.theta0 * Neo.r2d * 10 ^ 7 + 1 / 2 := Int.floor_le _
    have h3 : (360 : ℝ) * 10 ^ 7 = 3600000000 := by norm_num
    linarith [h1, h2]
  exact ne_of_lt hlt

/-- Claim C4 counterexample: the rotation by 360 − 8e-8 degrees is
within 1e-7 degrees of a full turn (a multiple of 360°), yet serializing
its matrix still emits a rotate token — the emitted value rounds to
359.9999999, which escapes both the radian `limit` window check and the
`'360deg'` string test. -/
theorem rotate_near_360_emitted : ¬ Neo.C4Claim := by
  intro h
  rcases htoks : Neo.toCSSTokens Neo.Mtheta0 none with - | toks
  · rw [Neo.toCSSTokens] at htoks
    rw [decompose_Mtheta0] at htoks
    exact Option.noConfusion htoks
  · have hwithin : |(Neo.theta0 * (180 / Real.pi)) - 360 * ((1 : ℤ) : ℝ)| ≤
        1e-7 := by
      rw [theta0_degs]
      rw [abs_le]
      push_cast
      constructor <;> norm_num
    have hnone := h Neo.Mtheta0
      ⟨0, 0, 1, 1, 0, Neo.theta0, Neo.theta0, Neo.theta0 * (180 / Real.pi)⟩
      toks decompose_Mtheta0 htoks 1 hwithin
      (Neo.roundp 7 (Neo.theta0 * Neo.r2d))
    apply hnone
    simp only [Neo.toCSSTokens, decompose_Mtheta0] at htoks
    obtain rfl := Option.some.inj htoks
    rw [rotate_mem_buildToks]
    rw [if_pos ⟨by nlinarith [theta0_bounds.1, Real.pi_gt_d2],
      by nlinarith [theta0_bounds.2, Real.pi_lt_d2]⟩]
    rw [filter360_some, if_neg roundp_theta0_ne]

/-- Claim C4 amended: the serializer omits the rotate token whenever the
decomposed rotation (a radian value) is at most the `limit` 1e-7, or
whenever its degree rendering rounds to exactly 360 at the precision in
use (the source's `rotate === '360deg'` test) — these, not closeness to
a multiple of 360 degrees, are the actual omission conditions; in
particular `serialize(rotate(360))` emits no rotate token at all (its
whole token list is empty). -/
theorem rotate_token_omission :
    (∀ (m : Neo) (d : Neo.Decomposed) (toks : List Neo.Token),
      Neo.decompose m = some d → Neo.toCSSTokens m none = some toks →
      d.rotate ≤ 1 / 10 ^ 7 ∨ Neo.roundp 7 (d.rotate * Neo.r2d) = 360 →
      ∀ v, Neo.Token.rotate v ∉ toks) ∧
    Neo.toCSSTokens Neo.M360 none = some [] := by
  constructor
  · intro m d toks hdec htoks hcond v hmem
    simp only [Neo.toCSSTokens, hdec] at htoks
    obtain rfl := Option.some.inj htoks
    rw [rotate_mem_buildToks] at hmem
    rcases hcond with hle | h360
    · rw [if_neg (fun hc => absurd hc.1 (not_lt.mpr hle)), filter360_none]
        at hmem
      exact Option.noConfusion hmem
    · by_cases hc : 1 / 10 ^ 7 < d.rotate ∧ d.rotate < 360 - 1 / 10 ^ 7
      · rw [if_pos hc, filter360_some, if_pos h360] at hmem
        exact Option.noConfusion hmem
      · rw [if_neg hc, filter360_none] at hmem
        exact Option.noConfusion hmem
  · simp only [Neo.toCSSTokens, decompose_M360]
    rw [if_pos (show (1 : ℝ) / 10 ^ 7 < 360 * Neo.deg2rad ∧
          360 * Neo.deg2rad < 360 - 1 / 10 ^ 7 from
        ⟨by nlinarith [r360_bounds.1, Real.pi_gt_d2],
         by nlinarith [r360_bounds.2, Real.pi_lt_d2]⟩)]
    rw [filter360_some, if_pos roundp_r360]
    rw [if_neg (by norm_num : ¬((1:ℝ) / 10 ^ 7 < 0 ∨ (0:ℝ) < -(1 / 10 ^ 7)))]
    rw [if_neg (by norm_num : ¬((1:ℝ) + 1 / 10 ^ 7 < 1 ∨ (1:ℝ) < 1 - 1 / 10 ^ 7))]
    simp [Neo.buildToks]
    rw [if_neg (by norm_num : ¬((10:ℝ) ^ 7 < 0))]

/-- Claim C4 witness: the amended omission statement applied at
`rotate(360)` (whose rounded degree value is exactly 360), on its empty
token list. -/
theorem rotate_token_omission_witness :
    Neo.Token.rotate 360 ∉ ([] : List Neo.Token) :=
  rotate_token_omission.1 Neo.M360
    ⟨0, 0, 1, 1, 0, 360 * Neo.deg2rad, 360 * Neo.deg2rad,
     360 * Neo.deg2rad * (180 / Real.pi)⟩
    [] decompose_M360 rotate_token_omission.2 (Or.inr roundp_r360) 360
